import Mathlib

/-!
Shallow embedding of the scoring and suggestion core of the AI-Resume-Analyzer
repository (`src/scoring.py`, `src/improve_bot.py`, `src/embeddings.py`, and
the ranking step of `app.py`), with proofs settling the specification claims.

Modelling conventions:
* Python strings are Lean `String`s; character-level matching happens on
  `List Char` (ASCII fragment of Python's `str`/`re` behaviour, which is all
  the repository's data exercises).
* Python float arithmetic is idealised as exact rational arithmetic (`ℚ`).
  The two transcendental ingredients — the natural logarithm inside
  scikit-learn's smoothed idf and the square root used by the L2 norms — are
  passed in as explicit function parameters `lg sq : ℚ → ℚ`, since no claim
  under study depends on their numeric values.
* The sentence-transformer embedding backend is an arbitrary deterministic
  function `embed : String → List ℚ` (its weights live outside the
  repository); scikit-learn's fixed English stop-word list is likewise a
  parameter `stop : List String`.
* Fallible code returns `Except String`: scikit-learn's `fit_transform`
  raises `ValueError: empty vocabulary …` when the two documents together
  yield no (non-stop-word) tokens, which the embedding mirrors with
  `Except.error`.
-/

/-- ASCII fragment of the regex word class `\w`, as used by the patterns
`\b<kw>\b` that `scoring.keyword_coverage` builds with `re`. -/
def isWordChar (c : Char) : Bool := c.isAlphanum || c = '_'

/-- Python `str.lower()`, viewed on the character list of a string. -/
def lowerChars (s : String) : List Char := s.toList.map Char.toLower

/-- Python `str.lower()` returning a `String` (used for dictionary keys). -/
def lowerS (s : String) : String := String.mk (lowerChars s)

/-- Does the second list start with the first one? -/
def leadsWith : List Char → List Char → Bool
  | [], _ => true
  | _ :: _, [] => false
  | a :: as, b :: bs => a == b && leadsWith as bs

/-- Python substring containment, `needle in hay`, on strings. -/
def containsSub (needle : List Char) : List Char → Bool
  | [] => needle.isEmpty
  | c :: rest => leadsWith needle (c :: rest) || containsSub needle rest

/-- If `kw` is a prefix of `s`, return the rest of `s` after it. -/
def dropMatch : List Char → List Char → Option (List Char)
  | [], s => some s
  | _ :: _, [] => none
  | a :: as, b :: bs => if a = b then dropMatch as bs else none

/-- Wordness of an optional character; a text edge counts as non-word. -/
def isWordOpt : Option Char → Bool
  | none => false
  | some c => isWordChar c

/-- The regex word boundary `\b`: it matches between two (optional)
characters exactly when one side is a word character and the other is not. -/
def bdry (a b : Option Char) : Bool := isWordOpt a != isWordOpt b

/-- Does the pattern `\b<kw>\b` (with `kw` taken literally, as produced by
`re.escape`) match at the start of the suffix `s`, whose preceding character
in the full text is `prev`? -/
def wbHere (kw : List Char) (prev : Option Char) (s : List Char) : Bool :=
  match dropMatch kw s with
  | none => false
  | some rest =>
    match kw with
    | [] => bdry prev s.head?
    | c :: cs => bdry prev (some c) && bdry ((c :: cs).getLast?) rest.head?

/-- Scan of `re.search`: try the pattern at every position of the text. -/
def wbSearchGo (kw : List Char) (prev : Option Char) : List Char → Bool
  | [] => wbHere kw prev []
  | c :: rest => wbHere kw prev (c :: rest) || wbSearchGo kw (some c) rest

/-- Embedding of `re.search(r'\b' + re.escape(kw) + r'\b', txt) is not None`. -/
def wbSearch (kw txt : List Char) : Bool := wbSearchGo kw none txt

/-- Embedding of `scoring.keyword_coverage`: the number of keywords that have
a whole-word, case-insensitive occurrence in the text, divided by
`max 1 (number of keywords)`. -/
def keyword_coverage (text : String) (keywords : List String) : ℚ :=
  ((keywords.filter (fun kw => wbSearch (lowerChars kw) (lowerChars text))).length : ℚ) /
    ((max 1 keywords.length : ℕ) : ℚ)

/-- Embedding of `scoring.keyword_score`, returning `(must_cov, nice_cov)`. -/
def keyword_score (text : String) (must_have nice_to_have : List String) : ℚ × ℚ :=
  (keyword_coverage text must_have, keyword_coverage text nice_to_have)

/-- Result record of `improve_bot.gap_analysis`. -/
structure GapResult where
  missing_must : List String
  missing_nice : List String
deriving DecidableEq, Repr

/-- Embedding of `improve_bot.gap_analysis`: a keyword is missing when its
lower-cased form is not a substring (`not in`) of the lower-cased resume. -/
def gap_analysis (resume_text : String) (must_have nice_to_have : List String) : GapResult :=
  { missing_must :=
      must_have.filter (fun k => !(containsSub (lowerChars k) (lowerChars resume_text))),
    missing_nice :=
      nice_to_have.filter (fun k => !(containsSub (lowerChars k) (lowerChars resume_text))) }

lemma dropMatch_leadsWith :
    ∀ (kw s r : List Char), dropMatch kw s = some r → leadsWith kw s = true := by
  intro kw
  induction kw with
  | nil => intro s r _; rfl
  | cons a as ih =>
    intro s r h
    cases s with
    | nil => simp [dropMatch] at h
    | cons b bs =>
      by_cases hab : a = b
      · subst hab
        simp only [dropMatch, if_pos rfl] at h
        simp [leadsWith, ih _ _ h]
      · simp [dropMatch, hab] at h

lemma wbSearchGo_containsSub (kw : List Char) :
    ∀ (s : List Char) (prev : Option Char),
      wbSearchGo kw prev s = true → containsSub kw s = true := by
  intro s
  induction s with
  | nil =>
    intro prev h
    cases kw with
    | nil => rfl
    | cons a as => simp [wbSearchGo, wbHere, dropMatch] at h
  | cons c rest ih =>
    intro prev h
    rw [wbSearchGo, Bool.or_eq_true] at h
    rcases h with h | h
    · cases hd : dropMatch kw (c :: rest) with
      | none => simp [wbHere, hd] at h
      | some r =>
        have hl := dropMatch_leadsWith kw _ r hd
        simp [containsSub, hl]
    · simp [containsSub, ih _ h]

lemma wbSearch_containsSub (kw txt : List Char) :
    wbSearch kw txt = true → containsSub kw txt = true :=
  wbSearchGo_containsSub kw txt none

/-- Claim C6: an empty keyword list yields coverage `0` for every text,
because the denominator is floored at `max 1 0 = 1` and no keyword is found. -/
theorem keyword_coverage_empty_list (T : String) : keyword_coverage T [] = 0 := by
  simp [keyword_coverage]

/-- Claim C1 (counterexample): with resume text `"pythonic"` and must-have
keyword `"python"`, the Keyword Matcher reports coverage `0` (no whole-word
match), yet `gap_analysis` does not list `"python"` as missing (substring
match), so membership in `missing_must` is not equivalent to coverage `0`. -/
theorem gap_matches_coverage_cex :
    keyword_coverage "pythonic" ["python"] = 0 ∧
      "python" ∈ (["python"] : List String) ∧
      "python" ∉ (gap_analysis "pythonic" ["python"] []).missing_must := by
  refine ⟨?_, by decide, by decide⟩
  have h : wbSearch (lowerChars "python") (lowerChars "pythonic") = false := by decide
  simp [keyword_coverage, h]

/-- Claim C1 (amended): a keyword from `must_have` (resp. `nice_to_have`) is
in `missing_must` (resp. `missing_nice`) iff its lower-cased form does not
occur as a substring of the lower-cased resume text — case-insensitive
substring containment, not the Keyword Matcher's whole-word rule.  One
direction of the claimed consistency survives: every keyword listed as
missing has `keyword_coverage` equal to `0`. -/
theorem gap_analysis_substring_spec (T : String) (must nice : List String) (k : String) :
    ((k ∈ (gap_analysis T must nice).missing_must ↔
        k ∈ must ∧ containsSub (lowerChars k) (lowerChars T) = false) ∧
      (k ∈ (gap_analysis T must nice).missing_nice ↔
        k ∈ nice ∧ containsSub (lowerChars k) (lowerChars T) = false)) ∧
      (k ∈ (gap_analysis T must nice).missing_must → keyword_coverage T [k] = 0) := by
  constructor
  · constructor <;> simp [gap_analysis, List.mem_filter]
  · intro hk
    have hsub : containsSub (lowerChars k) (lowerChars T) = false := by
      have := (List.mem_filter.mp hk).2
      simpa using this
    have hwb : wbSearch (lowerChars k) (lowerChars T) = false := by
      cases hw : wbSearch (lowerChars k) (lowerChars T) with
      | false => rfl
      | true => rw [wbSearch_containsSub _ _ hw] at hsub; cases hsub
    simp [keyword_coverage, hwb]

/-- Claim C1 (witness for the amended theorem): in resume text `"db"` the
keyword `"sql"` is reported missing, and its coverage is `0`. -/
theorem gap_analysis_substring_spec_wit : keyword_coverage "db" ["sql"] = 0 :=
  (gap_analysis_substring_spec "db" ["sql"] [] "sql").2 (by decide)

/-- Tokenizer of scikit-learn's default `token_pattern r"(?u)\b\w\w+\b"` after
lowercasing, implemented as an accumulator scan: maximal runs of word
characters. -/
def wordRunsGo (cur : List Char) : List Char → List (List Char)
  | [] => if cur.isEmpty then [] else [cur.reverse]
  | c :: rest =>
    if isWordChar c then wordRunsGo (c :: cur) rest
    else if cur.isEmpty then wordRunsGo [] rest
    else cur.reverse :: wordRunsGo [] rest

/-- Tokens of a document: lower-cased maximal word-character runs of length
at least 2, as `CountVectorizer`'s analyzer produces them. -/
def tokenize (s : String) : List String :=
  ((wordRunsGo [] (lowerChars s)).filter (fun r => 2 ≤ r.length)).map String.mk

/-- Tokens remaining after removing the (fixed English) stop-word list. -/
def nonstopTokens (stop : List String) (s : String) : List String :=
  (tokenize s).filter (fun t => !(stop.contains t))

/-- The `max_features=5000` cap of `CountVectorizer._limit_features`: when the
vocabulary is larger, keep only the 5000 terms of highest total corpus count
(ties resolved towards the alphabetically earlier term; the library leaves
tie order unspecified), preserving the alphabetical vocabulary order. -/
def limitFeatures (vocab : List String) (cnt : String → ℕ) : List String :=
  if vocab.length ≤ 5000 then vocab
  else vocab.filter
    (fun t => ((List.insertionSort (fun s u => cnt u ≤ cnt s) vocab).take 5000).contains t)

/-- Vocabulary fitted on the token multiset `l` of the two-document corpus:
the distinct terms in alphabetical order (scikit-learn's `_sort_features`),
then capped at `max_features`. -/
def buildVocab (l : List String) : List String :=
  limitFeatures ((List.insertionSort (· ≤ ·) l).dedup) (fun t => l.count t)

/-- Document frequency contribution of one document: does the term occur? -/
def dfOf (toks : List String) (t : String) : ℕ := if t ∈ toks then 1 else 0

/-- Smoothed idf of `TfidfVectorizer` (defaults `smooth_idf=True`) for a
corpus of `n = 2` documents: `ln((1+2)/(1+df)) + 1`, logarithm abstract. -/
def idfQ (lg : ℚ → ℚ) (df : ℕ) : ℚ := lg (3 / (1 + (df : ℚ))) + 1

/-- Dot product of two rational vectors. -/
def dotQ (a b : List ℚ) : ℚ := (List.zipWith (· * ·) a b).sum

/-- Sum of squares of a vector (the square of its L2 norm). -/
def sumSq (v : List ℚ) : ℚ := dotQ v v

/-- L2 normalisation as scikit-learn's `normalize`: rows of norm 0 are kept
unchanged; `sq` plays the square root. -/
def l2normalize (sq : ℚ → ℚ) (v : List ℚ) : List ℚ :=
  if sq (sumSq v) = 0 then v else v.map (fun x => x / sq (sumSq v))

/-- Un-normalised tf-idf row of the document with tokens `own` over the
corpus `{d0, d1}`: raw term count times smoothed idf, per vocabulary term. -/
def rawRow (lg : ℚ → ℚ) (d0 d1 own vocab : List String) : List ℚ :=
  vocab.map (fun t => ((own.count t : ℕ) : ℚ) * idfQ lg (dfOf d0 t + dfOf d1 t))

/-- L2-normalised tf-idf row, as `TfidfVectorizer` (default `norm="l2"`)
returns it. -/
def tfidfVec (lg sq : ℚ → ℚ) (d0 d1 own : List String) : List ℚ :=
  l2normalize sq (rawRow lg d0 d1 own (buildVocab (d0 ++ d1)))

/-- The last two lines of `scoring.tfidf_overlap`: cosine of the two rows via
`np.linalg.norm`, defined as `0.0` when the product of the norms is zero. -/
def cosLike (sq : ℚ → ℚ) (a b : List ℚ) : ℚ :=
  if sq (sumSq a) * sq (sumSq b) = 0 then 0
  else dotQ a b / (sq (sumSq a) * sq (sumSq b))

/-- tf-idf overlap on the tokenised documents `tokJ` (job) and `tokR`
(resume); `fit_transform` raises `ValueError` when the fitted vocabulary is
empty, which the embedding returns as `Except.error`. -/
def tfidfFromToks (lg sq : ℚ → ℚ) (tokJ tokR : List String) : Except String ℚ :=
  if buildVocab (tokJ ++ tokR) = [] then
    Except.error "empty vocabulary; perhaps the documents only contain stop words"
  else
    Except.ok (cosLike sq (tfidfVec lg sq tokJ tokR tokJ) (tfidfVec lg sq tokJ tokR tokR))

/-- Embedding of `scoring.tfidf_overlap(resume_text, job_text)`: the
vectoriser is fitted on the pair `[job_text, resume_text]`. -/
def tfidf_overlap (stop : List String) (lg sq : ℚ → ℚ)
    (resume_text job_text : String) : Except String ℚ :=
  tfidfFromToks lg sq (nonstopTokens stop job_text) (nonstopTokens stop resume_text)

/-- Embedding of `embeddings.embed_texts` over an abstract encoder. -/
def embed_texts (embed : String → List ℚ) (texts : List String) : List (List ℚ) :=
  texts.map embed

/-- Embedding of `scoring.embedding_match`: dot product of the embeddings of
`[job_text, resume_text]` (already unit-normalised by the encoder). -/
def embedding_match (embed : String → List ℚ) (resume_text job_text : String) : ℚ :=
  dotQ ((embed_texts embed [job_text, resume_text]).getD 0 [])
    ((embed_texts embed [job_text, resume_text]).getD 1 [])

/-- Python `weights.get(key, default)` on the weight dictionary. -/
def wget (weights : List (String × ℚ)) (key : String) (dflt : ℚ) : ℚ :=
  (weights.lookup key).getD dflt

/-- The total blend of `scoring.overall_score` with the in-code defaults
`0.40` (embeddings), `0.45` (keyword_must), `0.15` (keyword_nice). -/
def scoreTotal (weights : List (String × ℚ)) (semantic must_cov nice_cov : ℚ) : ℚ :=
  wget weights "embeddings" (2/5) * semantic +
    wget weights "keyword_must" (9/20) * must_cov +
    wget weights "keyword_nice" (3/20) * nice_cov

/-- Result record of `scoring.overall_score`. -/
structure ScoreResult where
  must_coverage : ℚ
  nice_coverage : ℚ
  embedding_sim : ℚ
  tfidf_sim : ℚ
  semantic_sim : ℚ
  total_score : ℚ
deriving DecidableEq, Repr

/-- Embedding of `scoring.overall_score`. -/
def overall_score (stop : List String) (lg sq : ℚ → ℚ) (embed : String → List ℚ)
    (resume_text job_text : String) (weights : List (String × ℚ))
    (must_have nice_to_have : List String) : Except String ScoreResult :=
  match tfidf_overlap stop lg sq resume_text job_text with
  | Except.error e => Except.error e
  | Except.ok tfidf =>
    Except.ok
      { must_coverage := (keyword_score resume_text must_have nice_to_have).1,
        nice_coverage := (keyword_score resume_text must_have nice_to_have).2,
        embedding_sim := embedding_match embed resume_text job_text,
        tfidf_sim := tfidf,
        semantic_sim := 1/2 * embedding_match embed resume_text job_text + 1/2 * tfidf,
        total_score := scoreTotal weights
          (1/2 * embedding_match embed resume_text job_text + 1/2 * tfidf)
          (keyword_score resume_text must_have nice_to_have).1
          (keyword_score resume_text must_have nice_to_have).2 }

lemma dotQ_comm (a b : List ℚ) : dotQ a b = dotQ b a := by
  unfold dotQ
  rw [List.zipWith_comm_of_comm (· * ·) mul_comm a b]

lemma cosLike_comm (sq : ℚ → ℚ) (a b : List ℚ) : cosLike sq a b = cosLike sq b a := by
  unfold cosLike
  rw [mul_comm (sq (sumSq a)) (sq (sumSq b)), dotQ_comm a b]

lemma sortStr_comm (x y : List String) :
    List.insertionSort (· ≤ ·) (x ++ y) = List.insertionSort (· ≤ ·) (y ++ x) :=
  List.eq_of_perm_of_sorted
    ((List.perm_insertionSort _ _).trans
      (List.perm_append_comm.trans (List.perm_insertionSort _ _).symm))
    (List.sorted_insertionSort _ _) (List.sorted_insertionSort _ _)

lemma buildVocab_comm (x y : List String) : buildVocab (x ++ y) = buildVocab (y ++ x) := by
  unfold buildVocab
  rw [sortStr_comm x y]
  congr 1
  funext t
  simp [List.count_append, Nat.add_comm]

lemma rawRow_comm (lg : ℚ → ℚ) (d0 d1 own vocab : List String) :
    rawRow lg d0 d1 own vocab = rawRow lg d1 d0 own vocab := by
  unfold rawRow
  congr 1
  funext t
  rw [Nat.add_comm]

lemma tfidfFromToks_comm (lg sq : ℚ → ℚ) (x y : List String) :
    tfidfFromToks lg sq x y = tfidfFromToks lg sq y x := by
  unfold tfidfFromToks tfidfVec
  rw [buildVocab_comm y x, rawRow_comm lg y x y, rawRow_comm lg y x x,
    cosLike_comm]

/-- Claim C5: both similarity scorers are symmetric in their two text
arguments — for the tf-idf overlap because vocabulary, idf and the final
cosine only depend on the unordered document pair, and for the embedding
match because the dot product commutes, whatever the encoder returns. -/
theorem similarity_symm (stop : List String) (lg sq : ℚ → ℚ) (embed : String → List ℚ)
    (A B : String) :
    tfidf_overlap stop lg sq A B = tfidf_overlap stop lg sq B A ∧
      embedding_match embed A B = embedding_match embed B A := by
  constructor
  · unfold tfidf_overlap
    exact tfidfFromToks_comm lg sq (nonstopTokens stop B) (nonstopTokens stop A)
  · exact dotQ_comm (embed B) (embed A)

/-- Claim C2: on two empty texts the fitted vocabulary is empty and
`fit_transform` raises `ValueError` — the exception escapes `tfidf_overlap`
instead of the documented `0.0`.  The zero-norm guard itself works: when only
one text is degenerate the function returns `0.0`. -/
theorem tfidf_overlap_empty_vocabulary :
    tfidf_overlap [] (fun _ => 0) (fun _ => 0) "" ""
        = Except.error "empty vocabulary; perhaps the documents only contain stop words" ∧
      tfidf_overlap [] (fun _ => 0) (fun _ => 0) "" "ab" = Except.ok 0 := by
  constructor
  · rfl
  · have h1 : nonstopTokens [] "ab" = ["ab"] := rfl
    have h2 : nonstopTokens [] "" = [] := rfl
    have h3 : buildVocab (["ab"] ++ []) = ["ab"] := rfl
    rw [tfidf_overlap, h1, h2, tfidfFromToks, h3]
    simp [cosLike]

lemma wget_nonneg (w : List (String × ℚ)) (k : String) (d : ℚ)
    (hw : ∀ p ∈ w, 0 ≤ p.2) (hd : 0 ≤ d) : 0 ≤ wget w k d := by
  induction w with
  | nil => simpa [wget] using hd
  | cons p rest ih =>
    obtain ⟨a, b⟩ := p
    cases hk : (k == a) with
    | true =>
      have hb : wget ((a, b) :: rest) k d = b := by simp [wget, List.lookup, hk]
      rw [hb]
      exact hw (a, b) (List.mem_cons_self _ _)
    | false =>
      have hb : wget ((a, b) :: rest) k d = wget rest k d := by
        simp [wget, List.lookup, hk]
      rw [hb]
      exact ih (fun p hp => hw p (List.mem_cons_of_mem _ hp))

/-- Claim C4: holding the semantic signal and the weights fixed, the total
blend is monotone non-decreasing in the must coverage and in the nice
coverage, whenever all supplied weights are non-negative (the documented
defaults for absent keys are non-negative as well). -/
theorem scoreTotal_monotone (w : List (String × ℚ)) (sem m m' n n' : ℚ)
    (hw : ∀ p ∈ w, 0 ≤ p.2) :
    (m ≤ m' → scoreTotal w sem m n ≤ scoreTotal w sem m' n) ∧
      (n ≤ n' → scoreTotal w sem m n ≤ scoreTotal w sem m n') := by
  have hmust : 0 ≤ wget w "keyword_must" (9/20) := wget_nonneg _ _ _ hw (by norm_num)
  have hnice : 0 ≤ wget w "keyword_nice" (3/20) := wget_nonneg _ _ _ hw (by norm_num)
  constructor
  · intro hle
    unfold scoreTotal
    exact add_le_add_right
      (add_le_add_left (mul_le_mul_of_nonneg_left hle hmust) _) _
  · intro hle
    unfold scoreTotal
    exact add_le_add_left (mul_le_mul_of_nonneg_left hle hnice) _

/-- Claim C4 (witness): with the single non-negative weight
`keyword_must = 1`, raising the must coverage from `0` to `1` does not
decrease the total. -/
theorem scoreTotal_monotone_wit :
    scoreTotal [("keyword_must", (1 : ℚ))] 0 0 0
      ≤ scoreTotal [("keyword_must", (1 : ℚ))] 0 1 0 :=
  (scoreTotal_monotone [("keyword_must", (1 : ℚ))] 0 0 1 0 0 (by simp)).1 zero_le_one

/-- Claim C3: whenever `overall_score` returns a record, its `semantic_sim`
is the fixed half-and-half blend of `embedding_sim` and `tfidf_sim`, and its
`total_score` is the weighted sum with `weights.get`-style defaults `0.40`
(embeddings), `0.45` (keyword_must), `0.15` (keyword_nice); a key absent from
the weight mapping falls back to its default instead of failing. -/
theorem overall_score_blend_formula (stop : List String) (lg sq : ℚ → ℚ)
    (embed : String → List ℚ) (A B : String) (w : List (String × ℚ))
    (must nice : List String) (r : ScoreResult)
    (h : overall_score stop lg sq embed A B w must nice = Except.ok r) :
    r.semantic_sim = 1/2 * r.embedding_sim + 1/2 * r.tfidf_sim ∧
      r.total_score = wget w "embeddings" (2/5) * r.semantic_sim
        + wget w "keyword_must" (9/20) * r.must_coverage
        + wget w "keyword_nice" (3/20) * r.nice_coverage ∧
      (∀ k d, w.lookup k = none → wget w k d = d) := by
  cases htf : tfidf_overlap stop lg sq A B with
  | error e => rw [overall_score, htf] at h; cases h
  | ok t =>
    rw [overall_score, htf] at h
    injection h with h
    subst h
    refine ⟨rfl, rfl, ?_⟩
    intro k d hk
    simp [wget, hk]

/-- Claim C3 (witness): a fully concrete successful run of `overall_score`
with the empty weight mapping, whose record satisfies the blend formula. -/
theorem overall_score_blend_formula_wit :
    overall_score [] (fun _ => 0) (fun _ => 0) (fun _ => []) "x" "ab" [] ["ab"] []
        = Except.ok (ScoreResult.mk 0 0 0 0 0 0) ∧
      (ScoreResult.mk 0 0 0 0 0 0).semantic_sim
        = 1/2 * (ScoreResult.mk 0 0 0 0 0 0).embedding_sim
          + 1/2 * (ScoreResult.mk 0 0 0 0 0 0).tfidf_sim := by
  have htf : tfidf_overlap [] (fun _ => 0) (fun _ => 0) "x" "ab" = Except.ok 0 := by
    have h1 : nonstopTokens [] "ab" = ["ab"] := rfl
    have h2 : nonstopTokens [] "x" = [] := rfl
    have h3 : buildVocab (["ab"] ++ []) = ["ab"] := rfl
    rw [tfidf_overlap, h1, h2, tfidfFromToks, h3]
    simp [cosLike]
  have hcov : keyword_coverage "x" ["ab"] = 0 := by
    have hw : wbSearch (lowerChars "ab") (lowerChars "x") = false := rfl
    simp [keyword_coverage, hw]
  have hcov2 : keyword_coverage "x" [] = 0 := by simp [keyword_coverage]
  have hemb : embedding_match (fun _ => []) "x" "ab" = 0 := rfl
  have h : overall_score [] (fun _ => 0) (fun _ => 0) (fun _ => []) "x" "ab" [] ["ab"] []
      = Except.ok (ScoreResult.mk 0 0 0 0 0 0) := by
    rw [overall_score, htf]
    simp [keyword_score, hcov, hcov2, hemb, scoreTotal, wget]
  exact ⟨h, (overall_score_blend_formula [] (fun _ => 0) (fun _ => 0) (fun _ => [])
    "x" "ab" [] ["ab"] [] (ScoreResult.mk 0 0 0 0 0 0) h).1⟩

/-- Python `str.title()` (ASCII fragment): the first letter after a non-cased
character is upper-cased, every other letter lower-cased. -/
def pyTitleGo (prevCased : Bool) : List Char → List Char
  | [] => []
  | c :: rest =>
    if c.isAlpha then
      (if prevCased then c.toLower else c.toUpper) :: pyTitleGo true rest
    else c :: pyTitleGo false rest

/-- Python `kw.title()` on a string. -/
def pyTitle (s : String) : String := String.mk (pyTitleGo false s.toList)

/-- The fixed advice table `improve_bot.TIPS`, keyed by lower-case keyword. -/
def TIPS : List (String × String) :=
  [("python", "Show Python depth: projects, repos, or Kaggle notebooks. Mention libraries (pandas, numpy, scikit-learn)."),
   ("sql", "Quantify SQL work: window funcs, CTEs, query optimization, and real datasets you queried."),
   ("machine learning", "List 2–3 models you\x27ve trained end-to-end. Include metrics (ROC-AUC, F1) and business impact."),
   ("statistics", "Add statistical chops: hypothesis testing, confidence intervals, A/B tests you ran."),
   ("pandas", "Highlight data wrangling: groupby, merges, time-series resampling."),
   ("numpy", "Mention vectorization and performance improvements from NumPy usage."),
   ("scikit-learn", "Name pipelines, cross-validation, and model selection techniques you used."),
   ("data visualization", "Include 1–2 plots with links or images; mention Matplotlib/Plotly/Seaborn."),
   ("feature engineering", "Describe domain features you created and why they helped."),
   ("model evaluation", "Report metrics clearly; compare baselines vs. final models."),
   ("deep learning", "If relevant, note PyTorch/TensorFlow projects with problem, data size, and results."),
   ("nlp", "If NLP, state tasks (classification, NER, QA) and datasets. Link to demos."),
   ("mlops", "Mention experiment tracking (MLflow), CI, model registry, and deployment."),
   ("cloud", "Show pipelines on AWS/GCP/Azure; name services used.")]

/-- One output line of `suggestions_from_gaps`: bullet, title-cased keyword,
and the tip found under the lower-cased keyword — or the synthesized generic
tip (which interpolates the keyword verbatim) when the table has no entry. -/
def tipLine (kw : String) : String :=
  "- " ++ pyTitle kw ++ ": " ++
    ((TIPS.lookup (lowerS kw)).getD
      ("Add concrete evidence of " ++ kw ++ " (projects, metrics, or links)."))

/-- The fallback encouragement line appended when no keyword is missing. -/
def NO_GAPS_TIP : String :=
  "- Strong coverage already. Consider tightening bullets, quantifying impact, and linking to work."

/-- Embedding of `improve_bot.suggestions_from_gaps`: the loop over the two
buckets `missing_must`, `missing_nice` (in that order, `dict.get`-defaulting
to the empty list) is unrolled into an append. -/
def suggestions_from_gaps (gaps : List (String × List String)) : List String :=
  let out := ((gaps.lookup "missing_must").getD []).map tipLine
    ++ ((gaps.lookup "missing_nice").getD []).map tipLine
  if out.isEmpty then [NO_GAPS_TIP] else out

/-- The fixed role→keyword table of `improve_bot.suggest_improvements`. -/
def role_keywords : List (String × List String) :=
  [("data scientist", ["python", "machine learning", "deep learning", "sql", "statistics"]),
   ("ml engineer", ["mlops", "docker", "kubernetes", "model deployment", "pytorch", "tensorflow"]),
   ("data analyst", ["sql", "excel", "tableau", "power bi", "data visualization"])]

/-- Embedding of `improve_bot.suggest_improvements`: the target role is
lower-cased and looked up exactly; keywords are tested by plain substring
containment (`kw not in resume_text.lower()`), not word boundaries. -/
def suggest_improvements (resume_text target_role : String) : List String :=
  let suggestions :=
    match role_keywords.lookup (lowerS target_role) with
    | none => []
    | some kws =>
      (kws.filter (fun kw => !(containsSub kw.toList (lowerChars resume_text)))).map
        (fun kw => "Consider adding experience with **" ++ kw ++ "** to strengthen your "
          ++ target_role ++ " resume.")
  if suggestions.isEmpty then
    ["Your resume already looks good for a " ++ target_role ++ " role. 👍"]
  else suggestions

/-- Claim C7 (counterexample): the emitted line carries a leading `"- "`
bullet and a title-cased keyword, so it is not of the bare shape
`"<Keyword>: <tip text>"` that the claim states (neither with the keyword as
given nor title-cased). -/
theorem suggestions_format_cex :
    suggestions_from_gaps [("missing_must", ["python"]), ("missing_nice", [])]
        = ["- Python: Show Python depth: projects, repos, or Kaggle notebooks. Mention libraries (pandas, numpy, scikit-learn)."] ∧
      suggestions_from_gaps [("missing_must", ["python"]), ("missing_nice", [])]
        ≠ ["Python: Show Python depth: projects, repos, or Kaggle notebooks. Mention libraries (pandas, numpy, scikit-learn)."] ∧
      suggestions_from_gaps [("missing_must", ["python"]), ("missing_nice", [])]
        ≠ ["python: Show Python depth: projects, repos, or Kaggle notebooks. Mention libraries (pandas, numpy, scikit-learn)."] := by
  refine ⟨by decide, by decide, by decide⟩

/-- Claim C7 (amended): `suggestions_from_gaps` yields one line per missing
keyword, all `missing_must` before all `missing_nice` in their given order,
each line of the shape `"- <Keyword.title()>: <tip>"` with the tip looked up
under the lower-cased keyword and falling back to the generic
`"Add concrete evidence of <keyword> (projects, metrics, or links)."`; when
both gap lists are empty the result is exactly the fallback encouragement. -/
theorem suggestions_from_gaps_spec :
    (∀ must nice : List String,
      suggestions_from_gaps [("missing_must", must), ("missing_nice", nice)]
        = if must.isEmpty && nice.isEmpty then [NO_GAPS_TIP]
          else must.map tipLine ++ nice.map tipLine) ∧
      (∀ kw : String, TIPS.lookup (lowerS kw) = none →
        tipLine kw = "- " ++ pyTitle kw ++ ": " ++ ("Add concrete evidence of " ++ kw
          ++ " (projects, metrics, or links).")) := by
  constructor
  · intro must nice
    cases must <;> cases nice <;> simp [suggestions_from_gaps, List.lookup]
  · intro kw h
    simp [tipLine, h]

/-- Claim C8: an unknown target role (after lower-casing, absent from the
fixed table) always produces exactly the one "looks good" fallback message;
a matched role produces one message per expected keyword that has no
case-insensitive substring occurrence in the resume text (falling back to
the same single message when nothing is missing). -/
theorem suggest_improvements_spec :
    (∀ resume role : String, role_keywords.lookup (lowerS role) = none →
      suggest_improvements resume role
        = ["Your resume already looks good for a " ++ role ++ " role. 👍"]) ∧
      (∀ (resume role : String) (kws : List String),
        role_keywords.lookup (lowerS role) = some kws →
        suggest_improvements resume role
          = if (kws.filter (fun kw => !(containsSub kw.toList (lowerChars resume)))).isEmpty
            then ["Your resume already looks good for a " ++ role ++ " role. 👍"]
            else (kws.filter (fun kw => !(containsSub kw.toList (lowerChars resume)))).map
              (fun kw => "Consider adding experience with **" ++ kw
                ++ "** to strengthen your " ++ role ++ " resume.")) := by
  constructor
  · intro resume role h
    simp [suggest_improvements, h]
  · intro resume role kws h
    simp [suggest_improvements, h]

/-- Claim C8 (witness): `"Unknown Role"` is not in the table, and the result
is the single fallback element. -/
theorem suggest_improvements_spec_wit :
    suggest_improvements "anything" "Unknown Role"
      = ["Your resume already looks good for a Unknown Role role. 👍"] :=
  suggest_improvements_spec.1 "anything" "Unknown Role" (by decide)

/-- Claim C10: `suggestions_from_gaps` never returns an empty list for any
input mapping, and when both bucket keys are absent entirely the missing
keys are treated as empty lists, yielding exactly the fallback line — no
exception is possible (the embedding is a total function). -/
theorem suggestions_from_gaps_total :
    (∀ gaps : List (String × List String), suggestions_from_gaps gaps ≠ []) ∧
      (∀ gaps : List (String × List String),
        gaps.lookup "missing_must" = none → gaps.lookup "missing_nice" = none →
        suggestions_from_gaps gaps = [NO_GAPS_TIP]) := by
  constructor
  · intro gaps
    simp only [suggestions_from_gaps]
    split
    · simp
    · next h => simpa [List.isEmpty_iff] using h
  · intro gaps h1 h2
    simp [suggestions_from_gaps, h1, h2]

/-- Claim C10 (witness): a mapping with neither bucket key present produces
the single fallback line. -/
theorem suggestions_from_gaps_total_wit :
    suggestions_from_gaps [("other", ["x"])] = [NO_GAPS_TIP] :=
  suggestions_from_gaps_total.2 [("other", ["x"])] (by decide) (by decide)

/-- Embedding of the ranking line of `app.py`,
`pd.DataFrame(rows).sort_values("total_score", ascending=False)`, on rows of
(filename, total_score): pandas computes an ascending argsort of the score
column and reverses that indexer for the descending direction.  The ascending
argsort is modelled as a stable insertion sort — numpy's quicksort leaves tie
order implementation-defined, and on fewer than 16 elements it runs an
insertion sort, so the model matches it on the inputs at issue. -/
def rank_rows (rows : List (String × ℚ)) : List (String × ℚ) :=
  (List.insertionSort (fun a b => a.2 ≤ b.2) rows).reverse

lemma filter_orderedInsert (s : ℚ) (p : String × ℚ) (l : List (String × ℚ)) :
    (List.orderedInsert (fun a b => a.2 ≤ b.2) p l).filter (fun q => decide (q.2 = s))
      = if p.2 = s then p :: l.filter (fun q => decide (q.2 = s))
        else l.filter (fun q => decide (q.2 = s)) := by
  induction l with
  | nil =>
    by_cases hps : p.2 = s <;> simp [List.orderedInsert, List.filter, hps]
  | cons c rest ih =>
    by_cases hpc : p.2 ≤ c.2
    · simp only [List.orderedInsert, if_pos hpc]
      by_cases hps : p.2 = s <;> simp [List.filter_cons, hps]
    · have hcp : c.2 < p.2 := lt_of_not_le hpc
      simp only [List.orderedInsert, if_neg hpc]
      by_cases hps : p.2 = s
      · have hcs : ¬(c.2 = s) := by rw [← hps]; exact ne_of_lt hcp
        simp [List.filter_cons, ih, hps, hcs]
      · simp [List.filter_cons, ih, hps]

lemma filter_insertionSort (s : ℚ) (rows : List (String × ℚ)) :
    (List.insertionSort (fun a b => a.2 ≤ b.2) rows).filter (fun q => decide (q.2 = s))
      = rows.filter (fun q => decide (q.2 = s)) := by
  induction rows with
  | nil => rfl
  | cons p rest ih =>
    simp only [List.insertionSort, filter_orderedInsert, ih, List.filter_cons]
    by_cases hps : p.2 = s <;> simp [hps]

/-- Claim C9 (counterexample): two rows with equal `total_score` come out in
reversed input order, not their original one — descending order is obtained
by reversing an ascending argsort, which reverses ties. -/
theorem rank_rows_ties_cex :
    rank_rows [("first", (1 : ℚ)), ("second", 1)] = [("second", 1), ("first", 1)] ∧
      rank_rows [("first", (1 : ℚ)), ("second", 1)] ≠ [("first", 1), ("second", 1)] := by
  exact ⟨by decide, by decide⟩

/-- Claim C9 (amended): the ranked output is a permutation of the input rows,
ordered by `total_score` non-increasing (hence strictly descending whenever
scores are distinct); rows with equal `total_score` appear in the reverse of
their input order, because pandas reverses the ascending indexer for
`ascending=False`. -/
theorem rank_rows_spec (rows : List (String × ℚ)) :
    List.Perm (rank_rows rows) rows ∧
      (rank_rows rows).Pairwise (fun a b => b.2 ≤ a.2) ∧
      (∀ s : ℚ, (rank_rows rows).filter (fun p => decide (p.2 = s))
        = (rows.filter (fun p => decide (p.2 = s))).reverse) := by
  haveI h1 : IsTotal (String × ℚ) (fun a b => a.2 ≤ b.2) := ⟨fun a b => le_total a.2 b.2⟩
  haveI h2 : IsTrans (String × ℚ) (fun a b => a.2 ≤ b.2) := ⟨fun _ _ _ ha hb => le_trans ha hb⟩
  refine ⟨?_, ?_, ?_⟩
  · exact (List.reverse_perm _).trans (List.perm_insertionSort _ _)
  · rw [rank_rows, List.pairwise_reverse]
    exact List.sorted_insertionSort _ rows
  · intro s
    rw [rank_rows, List.filter_reverse, filter_insertionSort]

/-- Claim C7 (witness for the amended theorem): `"rust"` has no entry in the
advice table, so its line uses the synthesized generic tip. -/
theorem suggestions_from_gaps_spec_wit :
    tipLine "rust" = "- " ++ pyTitle "rust" ++ ": " ++ ("Add concrete evidence of "
      ++ "rust" ++ " (projects, metrics, or links).") :=
  suggestions_from_gaps_spec.2 "rust" (by decide)
